import Mathlib

/-!
A shallow embedding of the favicon resolution-and-cache engine of
`src/api/icons.rs` (bitwarden_rs), together with theorems checking the
natural-language specification against it.

Modelling conventions:
* Rust `&str` / `String` become Lean `String`; byte buffers (`Vec<u8>`)
  become `List Nat`.
* `str::starts_with` / `ends_with` / `contains` are modelled over the
  character list of the string (`strStartsWith`, `strEndsWith`,
  `strContains`), which agrees with the Rust semantics.
* Rust `char::is_alphanumeric` is modelled by `Char.isAlphanum`; the two
  coincide on ASCII, and every example in the specification is ASCII.
* `domain.len()` counts UTF-8 bytes in Rust, modelled by
  `String.utf8ByteSize`.
* The regex `(\d+)\D*(\d+)` of `parse_sizes` is modelled by an explicit
  leftmost-first matcher (`findCaptures`), with `\d` as the ASCII digits.
* Library calls (HTTP client, DNS resolution, URL join, base64 decoding)
  and the filesystem are abstracted into an explicit environment `Env`
  and filesystem state `FS`; panics (`unwrap` / `expect`) are surfaced as
  explicit `panicked` outcomes.
-/

set_option maxRecDepth 8000

deriving instance DecidableEq for Except

namespace Icons

/-- Model of Rust `str::starts_with`. -/
def strStartsWith (s p : String) : Bool :=
  p.data.isPrefixOf s.data

/-- Model of Rust `str::ends_with`. -/
def strEndsWith (s p : String) : Bool :=
  p.data.isSuffixOf s.data

/-- Infix test on character lists, by recursion on the haystack. -/
def listIsInfix (p : List Char) : List Char → Bool
  | [] => p.isEmpty
  | c :: cs => p.isPrefixOf (c :: cs) || listIsInfix p cs

/-- Model of Rust `str::contains` for a string pattern. -/
def strContains (s p : String) : Bool :=
  listIsInfix p.data s.data

/-- UTF-8 encoded length of one character. -/
def charUtf8Len (c : Char) : Nat :=
  if c.toNat < 128 then 1
  else if c.toNat < 2048 then 2
  else if c.toNat < 65536 then 3
  else 4

/-- Model of Rust `str::len`: the number of UTF-8 bytes. -/
def strByteLen (s : String) : Nat :=
  (s.data.map charUtf8Len).sum

/-- Model of Rust `str::trim` on the character list. -/
def listTrim (cs : List Char) : List Char :=
  ((cs.dropWhile Char.isWhitespace).reverse.dropWhile Char.isWhitespace).reverse

/-- `const ALLOWED_CHARS: &str = "_-.";` -/
def ALLOWED_CHARS : String := "_-."

/-- `fn is_valid_domain(domain: &str) -> bool` (icons.rs lines 39-53). -/
def is_valid_domain (domain : String) : Bool :=
  if domain.data.isEmpty || decide (255 < strByteLen domain) || strContains domain ".." then
    false
  else
    domain.data.all (fun c => c.isAlphanum || ALLOWED_CHARS.data.contains c)

/-- Digit value accumulator: the numeric value of a list of ASCII digits. -/
def digitsToNat (ds : List Char) : Nat :=
  ds.foldl (fun a c => a * 10 + (c.toNat - 48)) 0

/-- Model of `"<digits>".parse::<u16>().unwrap_or_default()`: the numeric
value when it fits in 16 bits, otherwise the default 0. -/
def parseU16OrDefault (ds : List Char) : Nat :=
  if digitsToNat ds ≤ 65535 then digitsToNat ds else 0

/-- Leftmost-first captures of the regex `(\d+)\D*(\d+)` (with `\d` the
ASCII digits), as the Rust regex crate computes them: the match starts at
the first digit of the string; the first group greedily takes the digit
run there, backing off by one digit when no further digit follows (the
`\D*` gap may be empty); the second group is the next greedy digit run. -/
def findCaptures (cs : List Char) : Option (List Char × List Char) :=
  let s1 := cs.dropWhile (fun c => !c.isDigit)
  let run := s1.takeWhile (fun c => c.isDigit)
  let rest := s1.dropWhile (fun c => c.isDigit)
  let rest2 := rest.dropWhile (fun c => !c.isDigit)
  if run.isEmpty then
    none
  else if !rest2.isEmpty then
    -- a second digit run exists after a (possibly empty) non-digit gap
    some (run, rest2.takeWhile (fun c => c.isDigit))
  else if 2 ≤ run.length then
    -- no digit after the run: greedy backtracking splits the run itself,
    -- the first group giving up exactly its last digit
    some (run.dropLast, [run.getLastD '0'])
  else
    none

/-- `fn parse_sizes(sizes: Option<String>) -> (u16, u16)` (icons.rs lines
352-369): trim, capture two digit groups with `(\d+)\D*(\d+)`, parse each
as `u16` with `unwrap_or_default`. -/
def parse_sizes (sizes : Option String) : Nat × Nat :=
  match sizes with
  | none => (0, 0)
  | some s =>
    match findCaptures (listTrim s.data) with
    | none => (0, 0)
    | some (w, h) => (parseU16OrDefault w, parseU16OrDefault h)

/-- `fn get_icon_priority(href: &str, sizes: Option<String>) -> u8`
(icons.rs lines 304-338). -/
def get_icon_priority (href : String) (sizes : Option String) : Nat :=
  let wh := parse_sizes sizes
  let width := wh.1
  let height := wh.2
  if width ≠ 0 && height ≠ 0 then
    if width == height then
      if width == 32 then 1
      else if width == 64 then 2
      else if 24 ≤ width && width ≤ 128 then 3
      else if width == 16 then 4
      else 5
    else 200
  else
    if strEndsWith href ".png" then 10
    else if strEndsWith href ".jpg" || strEndsWith href ".jpeg" then 20
    else 30

/-! ### Environment, trace and filesystem model -/

/-- Raw image bytes. -/
abbrev Bytes := List Nat

/-- `struct Icon { priority: u8, href: String }` (icons.rs lines 178-188). -/
structure Icon where
  priority : Nat
  href : String
deriving DecidableEq

/-- An HTTP response as observed by the code: the final URL after any
redirects (`content.url()`), the pre-parsed `set-cookie` headers (`none`
marks a header value that fails `to_str` or `Cookie::parse`), the icon
`link` elements (href, sizes) that pass the soup `rel`/`href` regex
filters, whether `Soup::from_reader` fails on the body, and the body
bytes delivered by `copy_to`. -/
structure Response where
  finalUrl : String
  rawCookies : List (Option (String × String))
  links : List (String × Option String)
  htmlParseError : Bool
  body : Bytes
deriving DecidableEq

/-- Outcome of one call of the shared HTTP client: the hosts that were
connected to (the request target first, then any redirect targets the
client follows on its own), and the response, `none` standing for a
connection, TLS or non-2xx failure. -/
structure FetchResult where
  connected : List String
  resp : Option Response

/-- A configured blacklist pattern as `Regex::new(&blacklist)` sees it:
either a pattern that compiles, carried as its match predicate, or an
invalid pattern, on which `.expect("Valid Regex")` (icons.rs line 85)
panics at every check that reaches the regex. -/
inductive BlacklistRegex where
  | invalid
  | valid (m : String → Bool)

/-- The ambient environment: configuration values from CONFIG, DNS
resolution (per address, whether it is a global IP; `none` = resolution
failure), the configured blacklist pattern, the HTTP client, and the
URL and base64 library functions.

`urlHost` models `Url::parse(url)` followed by
`.host_str().unwrap_or_default()`: `none` when parsing fails, so the
`.unwrap()` at icons.rs line 276 panics (this happens for strings that
pass is_valid_domain, such as an all-numeric name that overflows the
IPv4 parser or an invalid punycode label); `some host` otherwise, with
"" when the URL has no host, as for data URLs.

`joinUrl` models `url.join(reference)`: `none` when joining fails, so
the `.unwrap()` at icons.rs lines 234 and 252 panics (for example a
scraped href with a forbidden host code point such as a space); `some`
of the resolved URL string otherwise. -/
structure Env where
  icon_blacklist_non_global_ips : Bool
  resolve : String → Option (List Bool)
  icon_blacklist_regex : Option BlacklistRegex
  fetch : String → String → FetchResult
  urlHost : String → Option String
  joinUrl : String → String → Option String
  base64decode : String → Option Bytes
  icon_cache_folder : String
  icon_cache_ttl : Nat
  icon_cache_negttl : Nat
  disable_icon_download : Bool

/-- Modelled from the spec: the embedded fallback image asset
(`include_bytes!("../static/fallback-icon.png")`, 344 bytes, a file that
is not under src). Only its identity as a fixed nonempty byte string
matters to the claims. -/
def FALLBACK_ICON : Bytes := List.replicate 344 137

/-- `fn check_icon_domain_is_blacklisted(domain: &str) -> bool` (icons.rs
lines 67-94): blacklisted when the non-global-IP flag is set and some
resolved address is not global (resolution failure fails open), or
otherwise when the configured blacklist regex matches. Returns `none`
when the check itself panics: an invalid configured pattern hits
`Regex::new(&blacklist).expect("Valid Regex")` at line 85 — but only
when the IP step has not already blacklisted the domain, because the
regex step is skipped then (line 83). -/
def check_icon_domain_is_blacklisted (env : Env) (domain : String) : Option Bool :=
  let is_blacklisted :=
    env.icon_blacklist_non_global_ips &&
      (match env.resolve domain with
       | some addrsGlobal => addrsGlobal.any (fun g => !g)
       | none => false)
  if !is_blacklisted then
    match env.icon_blacklist_regex with
    | some BlacklistRegex.invalid => none
    | some (BlacklistRegex.valid m) => some (m domain)
    | none => some is_blacklisted
  else
    some is_blacklisted

/-- Network trace of a computation: the hosts of the URLs the code hands
to the HTTP client (each recorded after the blacklist guard passes), and
the hosts actually connected to, which also include redirect targets the
client follows internally. -/
structure Trace where
  requested : List String
  connected : List String
deriving DecidableEq

def Trace.empty : Trace := ⟨[], []⟩

def Trace.app (t u : Trace) : Trace :=
  ⟨t.requested ++ u.requested, t.connected ++ u.connected⟩

/-- Outcome of get_page_with_cookies: a response, an absorbed error
(blacklisted host or failed request), or a panic — from the
`Url::parse(url).unwrap()` at icons.rs line 276 or from the blacklist
check compiling an invalid pattern. -/
inductive GPageRes where
  | ok (r : Response)
  | err
  | panicked
deriving DecidableEq

/-- `fn get_page_with_cookies(url: &str, cookie_str: &str)` (icons.rs
lines 275-290): parse the URL (`.unwrap()` panics on failure), guard
the target host (the guard itself can panic on an invalid configured
pattern), then issue the request. -/
def get_page_with_cookies (env : Env) (url cookie_str : String) :
    GPageRes × Trace :=
  match env.urlHost url with
  | none => (GPageRes.panicked, Trace.empty)
  | some host =>
    match check_icon_domain_is_blacklisted env host with
    | none => (GPageRes.panicked, Trace.empty)
    | some true => (GPageRes.err, Trace.empty)
    | some false =>
      let fr := env.fetch url cookie_str
      match fr.resp with
      | some r => (GPageRes.ok r, ⟨[host], fr.connected⟩)
      | none => (GPageRes.err, ⟨[host], fr.connected⟩)

/-- `fn get_page(url: &str)` (icons.rs lines 271-273). -/
def get_page (env : Env) (url : String) : GPageRes × Trace :=
  get_page_with_cookies env url ""

/-- The cookie string built from the `set-cookie` headers (icons.rs lines
220-231): unreadable headers are skipped, parsed cookies each contribute
"name=value; ", parse failures contribute the empty string. -/
def cookieString (raw : List (Option (String × String))) : String :=
  String.join (raw.map (fun rc =>
    match rc with
    | some nv => nv.1 ++ "=" ++ nv.2 ++ "; "
    | none => ""))

/-- Stable insertion into a list sorted by priority: the new element goes
before the first element of greater-or-equal priority. -/
def insertByPrio (x : Icon) : List Icon → List Icon
  | [] => [x]
  | y :: ys => if y.priority < x.priority then y :: insertByPrio x ys else x :: y :: ys

/-- Model of `iconlist.sort_by_key(|x| x.priority)` (icons.rs line 265):
insertion sort, stable like Rust sort_by_key; two stable sorts by the
same key agree extensionally. -/
def sortByPrio : List Icon → List Icon
  | [] => []
  | x :: xs => insertByPrio x (sortByPrio xs)

/-- The favicon loop of get_icon_url (icons.rs lines 249-257): each
link's href is resolved against the page URL with
`url.join(&href).unwrap()` and scored; `none` marks the panic of that
unwrap on a scraped href that passes the soup filter but fails to
join. -/
def build_icons (env : Env) (url : String) :
    List (String × Option String) → Option (List Icon)
  | [] => some []
  | l :: ls =>
    match env.joinUrl url l.1 with
    | none => none
    | some full_href =>
      match build_icons env url ls with
      | none => none
      | some rest => some (Icon.mk (get_icon_priority full_href l.2) full_href :: rest)

/-- Outcome of get_icon_url: the candidate list with the cookie string,
an error (soup parse failure), or a panic propagated from get_page or
raised by a failing `Url::join(..).unwrap()` (icons.rs lines 234 and
252). -/
inductive IconListRes where
  | ok (iconlist : List Icon) (cookie_str : String)
  | err
  | panicked
deriving DecidableEq

/-- The success branch of get_icon_url (icons.rs lines 216-257): cookie
extraction, the seeded favicon guess joined against the final URL (line
234, `.unwrap()` panics when the join fails), a soup parse failure
aborting the whole function, and the scored link candidates (a failing
link join panics at line 252). -/
def process_page (env : Env) (content : Response) (t : Trace) : IconListRes × Trace :=
  let url := content.finalUrl
  let cookie_str := cookieString content.rawCookies
  match env.joinUrl url "/favicon.ico" with
  | none => (IconListRes.panicked, t)
  | some fav =>
    if content.htmlParseError then
      (IconListRes.err, t)
    else
      match build_icons env url content.links with
      | none => (IconListRes.panicked, t)
      | some found => (IconListRes.ok (Icon.mk 35 fav :: found) cookie_str, t)

/-- The body of `fn get_icon_url(domain: &str)` (icons.rs lines 202-269)
up to, but not including, the final `sort_by_key`: probe https then
http (a panic during the https probe propagates, only an error falls
back to http); on success process the page; on failure of both schemes
seed the two plain favicon guesses with an empty cookie string. -/
def get_icon_url_raw (env : Env) (domain : String) : IconListRes × Trace :=
  let ssldomain := "https://" ++ domain
  let httpdomain := "http://" ++ domain
  let (r1, t1) := get_page env ssldomain
  let (resp, t) :=
    match r1 with
    | GPageRes.ok c => (GPageRes.ok c, t1)
    | GPageRes.panicked => (GPageRes.panicked, t1)
    | GPageRes.err =>
      let (r2, t2) := get_page env httpdomain
      (r2, t1.app t2)
  match resp with
  | GPageRes.panicked => (IconListRes.panicked, t)
  | GPageRes.ok content => process_page env content t
  | GPageRes.err =>
    (IconListRes.ok [Icon.mk 35 (ssldomain ++ "/favicon.ico"),
                     Icon.mk 35 (httpdomain ++ "/favicon.ico")] "", t)

/-- `fn get_icon_url(domain: &str)` (icons.rs lines 202-269): the raw
candidate list sorted stably by priority. -/
def get_icon_url (env : Env) (domain : String) : IconListRes × Trace :=
  match get_icon_url_raw env domain with
  | (IconListRes.ok l cookie_str, t) => (IconListRes.ok (sortByPrio l) cookie_str, t)
  | (IconListRes.err, t) => (IconListRes.err, t)
  | (IconListRes.panicked, t) => (IconListRes.panicked, t)

/-- Model of `DataUrl::process` from the data_url crate: a data URL must
contain a comma separating the metadata from the payload; without one,
processing fails (`none`), which the code turns into a panic by
`.unwrap()`. On success the payload after the first comma is returned. -/
def dataUrlProcess (s : String) : Option String :=
  if s.data.contains ',' then
    some (String.mk ((s.data.dropWhile (fun c => !(c == ','))).drop 1))
  else
    none

/-- Result of the candidate loop of download_icon: the buffer after the
loop, or a panic from `DataUrl::process(..).unwrap()`. -/
inductive LoopRes where
  | buf (b : Bytes)
  | panicked
deriving DecidableEq

/-- The `for icon in iconlist.iter().take(5)` loop of `download_icon`
(icons.rs lines 382-406): a data-URI candidate is processed and decoded,
accepted when the decoded body has at least 67 bytes; an http(s)
candidate is fetched through the guard with the cookie string attached
and accepted when the request succeeds; the loop stops at the first
acceptance, otherwise the buffer stays empty. -/
def icon_loop (env : Env) (cookie_str : String) : List Icon → LoopRes × Trace
  | [] => (LoopRes.buf [], Trace.empty)
  | cand :: rest =>
    if strStartsWith cand.href "data:image" then
      match dataUrlProcess cand.href with
      | none => (LoopRes.panicked, Trace.empty)
      | some payload =>
        match env.base64decode payload with
        | some body =>
          if 67 ≤ body.length then (LoopRes.buf body, Trace.empty)
          else icon_loop env cookie_str rest
        | none => icon_loop env cookie_str rest
    else
      let (r, t) := get_page_with_cookies env cand.href cookie_str
      match r with
      | GPageRes.panicked => (LoopRes.panicked, t)
      | GPageRes.ok res => (LoopRes.buf res.body, t)
      | GPageRes.err =>
        let (res2, t2) := icon_loop env cookie_str rest
        (res2, t.app t2)

/-- Outcome of `download_icon`. -/
inductive DlRes where
  | ok (b : Bytes)
  | err
  | panicked
deriving DecidableEq

/-- `fn download_icon(domain: &str) -> Result<Vec<u8>, Error>` (icons.rs
lines 371-413). The initial blacklist check on the bare domain can
itself panic on an invalid configured pattern. -/
def download_icon (env : Env) (domain : String) : DlRes × Trace :=
  match check_icon_domain_is_blacklisted env domain with
  | none => (DlRes.panicked, Trace.empty)
  | some true => (DlRes.err, Trace.empty)
  | some false =>
    match get_icon_url env domain with
    | (IconListRes.panicked, t) => (DlRes.panicked, t)
    | (IconListRes.err, t) => (DlRes.err, t)
    | (IconListRes.ok iconlist cookie_str, t) =>
      let (res, t2) := icon_loop env cookie_str (iconlist.take 5)
      match res with
      | LoopRes.panicked => (DlRes.panicked, t.app t2)
      | LoopRes.buf buffer =>
        if buffer.isEmpty then (DlRes.err, t.app t2)
        else (DlRes.ok buffer, t.app t2)

/-- A cached file: its age in seconds at the time of the request, and its
content. -/
structure FileEntry where
  age : Nat
  content : Bytes
deriving DecidableEq

/-- The filesystem as the code observes it: whether the icon cache
directory exists, whether `File::create` fails for a reason other than a
missing directory, whether `write_all` fails, whether `create_dir_all`
fails, and the files present. -/
structure FS where
  cacheDirExists : Bool
  createFails : Bool
  writeFails : Bool
  mkdirFails : Bool
  files : List (String × FileEntry)
deriving DecidableEq

def FS.lookup (fs : FS) (path : String) : Option FileEntry :=
  (fs.files.find? (fun pe => pe.1 == path)).map (fun pe => pe.2)

def FS.setFile (fs : FS) (path : String) (content : Bytes) : FS :=
  { fs with files := (path, FileEntry.mk 0 content) ::
      fs.files.filter (fun pe => !(pe.1 == path)) }

def FS.remove (fs : FS) (path : String) : FS :=
  { fs with files := fs.files.filter (fun pe => !(pe.1 == path)) }

/-- `fn save_icon(path: &str, icon: &[u8])` (icons.rs lines 415-427),
with the panic of each `.expect` surfaced in the second component: when
`File::create` succeeds, a `write_all` failure panics; when it fails
with NotFound (the cache directory is missing), the directory is created
(a failure there also panics) and, notably, the file is not written;
any other create error is only logged. -/
def save_icon (fs : FS) (path : String) (icon : Bytes) : FS × Bool :=
  if fs.cacheDirExists then
    if fs.createFails then (fs, false)
    else if fs.writeFails then (fs, true)
    else (fs.setFile path icon, false)
  else
    if fs.mkdirFails then (fs, true)
    else ({ fs with cacheDirExists := true }, false)

/-- `fn file_is_expired(path: &str, ttl: u64) -> Result<bool, Error>`
(icons.rs lines 146-152): any failure to stat the file or compute its
age is an error; otherwise expired = ttl positive and not exceeding the
age in seconds. -/
def file_is_expired (fs : FS) (path : String) (ttl : Nat) : Except Unit Bool :=
  match fs.lookup path with
  | none => Except.error ()
  | some e => Except.ok (decide (0 < ttl) && decide (ttl ≤ e.age))

/-- `fn icon_is_negcached(path: &str) -> bool` (icons.rs lines 154-171),
returning also the filesystem after the possible removal of the expired
miss marker. -/
def icon_is_negcached (env : Env) (fs : FS) (path : String) : Bool × FS :=
  let miss_indicator := path ++ ".miss"
  match file_is_expired fs miss_indicator env.icon_cache_negttl with
  | Except.ok true => (false, fs.remove miss_indicator)
  | Except.ok false => (true, fs)
  | Except.error _ => (false, fs)

/-- `fn icon_is_expired(path: &str) -> bool` (icons.rs lines 173-176). -/
def icon_is_expired (env : Env) (fs : FS) (path : String) : Bool :=
  match file_is_expired fs path env.icon_cache_ttl with
  | Except.ok b => b
  | Except.error _ => true

/-- `fn get_cached_icon(path: &str) -> Option<Vec<u8>>` (icons.rs lines
123-144), returning also the possibly updated filesystem. -/
def get_cached_icon (env : Env) (fs : FS) (path : String) : Option Bytes × FS :=
  match icon_is_negcached env fs path with
  | (true, fs1) => (some FALLBACK_ICON, fs1)
  | (false, fs1) =>
    if icon_is_expired env fs1 path then (none, fs1)
    else
      match fs1.lookup path with
      | some e => (some e.content, fs1)
      | none => (none, fs1)

/-- Outcome of `get_icon` and of the boundary operation: the returned
bytes with the final filesystem, or a panic. -/
inductive GRes where
  | ok (b : Bytes) (fs : FS)
  | panicked
deriving DecidableEq

/-- `fn get_icon(domain: &str) -> Vec<u8>` (icons.rs lines 96-121). -/
def get_icon (env : Env) (fs : FS) (domain : String) : GRes × Trace :=
  let path := env.icon_cache_folder ++ "/" ++ domain ++ ".png"
  match get_cached_icon env fs path with
  | (some cached, fs1) => (GRes.ok cached fs1, Trace.empty)
  | (none, fs1) =>
    if env.disable_icon_download then
      (GRes.ok FALLBACK_ICON fs1, Trace.empty)
    else
      match download_icon env domain with
      | (DlRes.ok iconBytes, t) =>
        let (fs2, pan) := save_icon fs1 path iconBytes
        ((if pan then GRes.panicked else GRes.ok iconBytes fs2), t)
      | (DlRes.err, t) =>
        let (fs2, pan) := save_icon fs1 (path ++ ".miss") []
        ((if pan then GRes.panicked else GRes.ok FALLBACK_ICON fs2), t)
      | (DlRes.panicked, t) => (GRes.panicked, t)

/-- The boundary operation `fn icon(domain: String)` (icons.rs lines
55-65): an invalid domain short-circuits to the fallback image, anything
else goes through get_icon. -/
def icon (env : Env) (fs : FS) (domain : String) : GRes × Trace :=
  if !is_valid_domain domain then
    (GRes.ok FALLBACK_ICON fs, Trace.empty)
  else
    get_icon env fs domain

example : parse_sizes (some "64x64") = (64, 64) := by decide
example : parse_sizes (some "x128x128") = (128, 128) := by decide
example : parse_sizes (some "32") = (3, 2) := by decide
example : parse_sizes (some "99999x99999") = (0, 0) := by decide
example : parse_sizes none = (0, 0) := by decide
example : get_icon_priority "http://e.com/favicon.png" (some "32x32") = 1 := by decide
example : get_icon_priority "http://e.com/favicon.ico" none = 30 := by decide
example : is_valid_domain "" = false := by decide
example : is_valid_domain "a..b" = false := by decide
example : is_valid_domain "a/b" = false := by decide
example : is_valid_domain "sub.example-1.com" = true := by decide

/-! ### C3, C5, C6, C10: the pure string functions -/

/-- C3: the claim (and the doc comment of parse_sizes itself) says
`parse_sizes("32") = (0, 0)` because no two-number match should be
found; the code evaluates it to (3, 2): the regex `(\d+)\D*(\d+)` does
match "32", with an empty `\D*` gap splitting the digit run into "3"
and "2". -/
theorem C3_parse_sizes_32 : parse_sizes (some "32") = (3, 2) := by decide

/-- The priority mapping as the specification words it (C5): square
sizes rank 1/2/3/4/5, non-square 200, otherwise the extension ranks. -/
def prioritySpecC5 (href : String) (sizes : Option String) : Nat :=
  let wh := parse_sizes sizes
  let w := wh.1
  let h := wh.2
  if w ≠ 0 ∧ h ≠ 0 then
    if w = h then
      if w = 32 then 1
      else if w = 64 then 2
      else if 24 ≤ w ∧ w ≤ 128 ∧ w ≠ 32 ∧ w ≠ 64 then 3
      else if w = 16 then 4
      else 5
    else 200
  else if strEndsWith href ".png" then 10
  else if strEndsWith href ".jpg" ∨ strEndsWith href ".jpeg" then 20
  else 30

/-- C5: for every href and sizes input, get_icon_priority returns exactly
the value the specification describes: 1 for square 32, 2 for square 64,
3 for any other square size in 24..=128, 4 for square 16, 5 for any
other square, 200 for a non-square declared size, and 10/20/30 by
extension (.png / .jpg or .jpeg / anything else) when no usable size is
declared. -/
theorem C5_get_icon_priority_matches_spec (href : String) (sizes : Option String) :
    get_icon_priority href sizes = prioritySpecC5 href sizes := by
  unfold get_icon_priority prioritySpecC5
  rcases hp : parse_sizes sizes with ⟨w, h⟩
  simp only [Bool.and_eq_true, decide_eq_true_eq, beq_iff_eq, Bool.or_eq_true]
  split_ifs <;> first | rfl | omega

/-- C6: the domain validator returns false exactly when the input is
empty, longer than 255 bytes, contains "..", or contains a character
that is neither alphanumeric nor one of the underscore, hyphen-minus and
full-stop characters; the five concrete examples of the specification
evaluate as stated. -/
theorem C6_is_valid_domain_characterization :
    (∀ d : String, is_valid_domain d = false ↔
      (d = "" ∨ 255 < strByteLen d ∨ strContains d ".." = true ∨
        ∃ c ∈ d.data, ¬(c.isAlphanum = true ∨ c = '_' ∨ c = '-' ∨ c = '.'))) ∧
    is_valid_domain "" = false ∧
    is_valid_domain (String.mk (List.replicate 256 'a')) = false ∧
    is_valid_domain "a..b" = false ∧
    is_valid_domain "a/b" = false ∧
    is_valid_domain "sub.example-1.com" = true := by
  refine ⟨?_, by decide, by decide, by decide, by decide, by decide⟩
  intro d
  have hallowed : ∀ c : Char, (ALLOWED_CHARS.data.contains c = true) ↔
      (c = '_' ∨ c = '-' ∨ c = '.') := by
    intro c
    show (['_', '-', '.'].contains c = true) ↔ _
    simp [List.contains]
  unfold is_valid_domain
  by_cases hcond : (d.data.isEmpty || decide (255 < strByteLen d) || strContains d "..") = true
  · rw [if_pos hcond]
    simp only [Bool.or_eq_true, decide_eq_true_eq, List.isEmpty_iff] at hcond
    constructor
    · intro _
      rcases hcond with (h | h) | h
      · exact Or.inl (by apply String.ext; simpa using h)
      · exact Or.inr (Or.inl h)
      · exact Or.inr (Or.inr (Or.inl h))
    · intro _; rfl
  · rw [if_neg hcond]
    simp only [Bool.or_eq_true, decide_eq_true_eq, List.isEmpty_iff, not_or] at hcond
    obtain ⟨⟨hne, hlen⟩, hdots⟩ := hcond
    constructor
    · intro hall
      refine Or.inr (Or.inr (Or.inr ?_))
      by_contra hno
      push_neg at hno
      have hall2 : d.data.all (fun c => c.isAlphanum || ALLOWED_CHARS.data.contains c) = true := by
        rw [List.all_eq_true]
        intro c hc
        show (c.isAlphanum || ALLOWED_CHARS.data.contains c) = true
        rcases hno c hc with h | h
        · rw [h, Bool.true_or]
        · have hcon : ALLOWED_CHARS.data.contains c = true := (hallowed c).mpr h
          rw [hcon, Bool.or_true]
      rw [hall2] at hall
      exact Bool.noConfusion hall
    · intro hr
      rcases hr with h | h | h | h
      · exact absurd (by simp [h]) hne
      · exact absurd h hlen
      · exact absurd h hdots
      · obtain ⟨c, hc, hbad⟩ := h
        push_neg at hbad
        obtain ⟨ha, h1, h2, h3⟩ := hbad
        rcases Bool.eq_false_or_eq_true
            (d.data.all (fun x => x.isAlphanum || ALLOWED_CHARS.data.contains x)) with hb | hb
        · rw [List.all_eq_true] at hb
          have hcb : (c.isAlphanum || ALLOWED_CHARS.data.contains c) = true := hb c hc
          rcases Bool.or_eq_true_iff.mp hcb with h' | h'
          · exact absurd h' ha
          · exact absurd ((hallowed c).mp h') (by tauto)
        · exact hb

/-- C10: parse_sizes parses each matched dimension as an unsigned 16-bit
integer, substituting 0 when the value exceeds 65535; in particular
"99999x99999" yields (0, 0) and such a candidate is ranked by file
extension (here .png gives 10). -/
theorem C10_u16_overflow_is_zero :
    (∀ (s : String) (w h : List Char), findCaptures (listTrim s.data) = some (w, h) →
      (65535 < digitsToNat w → (parse_sizes (some s)).1 = 0) ∧
      (65535 < digitsToNat h → (parse_sizes (some s)).2 = 0)) ∧
    parse_sizes (some "99999x99999") = (0, 0) ∧
    get_icon_priority "https://example.com/favicon.png" (some "99999x99999") = 10 := by
  refine ⟨?_, by decide, by decide⟩
  intro s w h hc
  constructor <;> intro hov <;>
    simp only [parse_sizes, hc, parseU16OrDefault] <;>
    rw [if_neg (by omega)]

/-- Witness for C10 at a concrete input with only one overflowing
dimension. -/
theorem C10_u16_overflow_is_zero_witness :
    findCaptures (listTrim ("99999x64").data) =
      some (['9','9','9','9','9'], ['6','4']) ∧
    65535 < digitsToNat ['9','9','9','9','9'] ∧
    (parse_sizes (some "99999x64")).1 = 0 := by
  refine ⟨by decide, by decide, ?_⟩
  exact (C10_u16_overflow_is_zero.1 "99999x64" ['9','9','9','9','9'] ['6','4']
    (by decide)).1 (by decide)

/-! ### C8, C4: cache expiry and cache writes -/

theorem find_filter_ne (p : String) (l : List (String × FileEntry)) :
    (l.filter (fun pe => !(pe.1 == p))).find? (fun pe => pe.1 == p) = none := by
  induction l with
  | nil => rfl
  | cons x xs ih =>
    by_cases hx : x.1 = p
    · simp [List.filter_cons, hx, ih]
    · simp [List.filter_cons, List.find?, hx, ih]

theorem FS.lookup_remove (fs : FS) (p : String) : (fs.remove p).lookup p = none := by
  unfold FS.remove FS.lookup
  simp [find_filter_ne]

/-- C8: a file is expired exactly when the TTL is positive and does not
exceed its age (a TTL of 0 never expires); a filesystem error while
checking the age is an error result, which icon_is_expired turns into
"expired" and icon_is_negcached turns into "not negatively cached", so
neither is a hard failure; and a miss marker whose age has reached the
negative TTL is deleted from the filesystem, not merely ignored. -/
theorem C8_cache_expiry :
    (∀ (fs : FS) (path : String) (ttl : Nat) (e : FileEntry),
        fs.lookup path = some e →
          file_is_expired fs path ttl =
            Except.ok (decide (0 < ttl) && decide (ttl ≤ e.age))) ∧
    (∀ (fs : FS) (path : String) (e : FileEntry),
        fs.lookup path = some e → file_is_expired fs path 0 = Except.ok false) ∧
    (∀ (fs : FS) (path : String) (ttl : Nat),
        fs.lookup path = none → file_is_expired fs path ttl = Except.error ()) ∧
    (∀ (env : Env) (fs : FS) (path : String),
        fs.lookup path = none → icon_is_expired env fs path = true) ∧
    (∀ (env : Env) (fs : FS) (path : String),
        fs.lookup (path ++ ".miss") = none →
          icon_is_negcached env fs path = (false, fs)) ∧
    (∀ (env : Env) (fs : FS) (path : String) (e : FileEntry),
        fs.lookup (path ++ ".miss") = some e →
        0 < env.icon_cache_negttl → env.icon_cache_negttl ≤ e.age →
          icon_is_negcached env fs path = (false, fs.remove (path ++ ".miss")) ∧
          (fs.remove (path ++ ".miss")).lookup (path ++ ".miss") = none) := by
  refine ⟨?_, ?_, ?_, ?_, ?_, ?_⟩
  · intro fs path ttl e he
    unfold file_is_expired
    rw [he]
  · intro fs path e he
    unfold file_is_expired
    rw [he]
    simp
  · intro fs path ttl he
    unfold file_is_expired
    rw [he]
  · intro env fs path he
    unfold icon_is_expired file_is_expired
    rw [he]
  · intro env fs path he
    simp only [icon_is_negcached, file_is_expired, he]
  · intro env fs path e he h1 h2
    refine ⟨?_, FS.lookup_remove fs (path ++ ".miss")⟩
    simp only [icon_is_negcached, file_is_expired, he, decide_eq_true h1,
      decide_eq_true h2, Bool.and_self]

/-- Witness for C8 at concrete cache states: a present hit file of age 7
with ttl 5 is expired and with ttl 0 is not; a missing hit file counts
as expired; a missing miss marker is not negatively cached; an aged miss
marker is dropped. -/
theorem C8_cache_expiry_witness :
    file_is_expired
        (FS.mk true false false false [("d.png", FileEntry.mk 7 [1])]) "d.png" 5 =
      Except.ok true ∧
    file_is_expired
        (FS.mk true false false false [("d.png", FileEntry.mk 7 [1])]) "d.png" 0 =
      Except.ok false ∧
    icon_is_expired
        (Env.mk false (fun _ => none) none (fun _ _ => FetchResult.mk [] none)
          (fun _ => some "") (fun b r => some (b ++ r)) (fun _ => none) "cache" 5 3 false)
        (FS.mk true false false false []) "d.png" = true ∧
    icon_is_negcached
        (Env.mk false (fun _ => none) none (fun _ _ => FetchResult.mk [] none)
          (fun _ => some "") (fun b r => some (b ++ r)) (fun _ => none) "cache" 5 3 false)
        (FS.mk true false false false []) "d.png" =
      (false, FS.mk true false false false []) ∧
    icon_is_negcached
        (Env.mk false (fun _ => none) none (fun _ _ => FetchResult.mk [] none)
          (fun _ => some "") (fun b r => some (b ++ r)) (fun _ => none) "cache" 5 3 false)
        (FS.mk true false false false [("d.png.miss", FileEntry.mk 9 [])]) "d.png" =
      (false, FS.mk true false false false []) := by
  have h1 := C8_cache_expiry.1
    (FS.mk true false false false [("d.png", FileEntry.mk 7 [1])]) "d.png" 5
    (FileEntry.mk 7 [1]) (by decide)
  have h2 := C8_cache_expiry.2.1
    (FS.mk true false false false [("d.png", FileEntry.mk 7 [1])]) "d.png"
    (FileEntry.mk 7 [1]) (by decide)
  have h4 := C8_cache_expiry.2.2.2.1
    (Env.mk false (fun _ => none) none (fun _ _ => FetchResult.mk [] none)
      (fun _ => some "") (fun b r => some (b ++ r)) (fun _ => none) "cache" 5 3 false)
    (FS.mk true false false false []) "d.png" (by decide)
  have h5 := C8_cache_expiry.2.2.2.2.1
    (Env.mk false (fun _ => none) none (fun _ _ => FetchResult.mk [] none)
      (fun _ => some "") (fun b r => some (b ++ r)) (fun _ => none) "cache" 5 3 false)
    (FS.mk true false false false []) "d.png" (by decide)
  have h6 := (C8_cache_expiry.2.2.2.2.2
    (Env.mk false (fun _ => none) none (fun _ _ => FetchResult.mk [] none)
      (fun _ => some "") (fun b r => some (b ++ r)) (fun _ => none) "cache" 5 3 false)
    (FS.mk true false false false [("d.png.miss", FileEntry.mk 9 [])]) "d.png"
    (FileEntry.mk 9 []) (by decide) (by decide) (by decide)).1
  exact ⟨by rw [h1]; rfl, h2, h4, h5, by rw [h6]; unfold FS.remove; simp⟩

/-- A filesystem whose cache directory is missing and where nothing
fails. -/
def fsNoDir : FS := FS.mk false false false false []

/-- A filesystem whose cache directory exists and where nothing fails. -/
def fsDir : FS := FS.mk true false false false []

/-- C4 counterexample: on a first call when the cache directory does not
yet exist, save_icon creates the directory but returns without writing,
so afterwards the hit file does not exist, contradicting the claim that
it then contains the given bytes. -/
theorem C4_counterexample :
    (save_icon fsNoDir "cache/example.com.png" [1, 2, 3]).1.lookup
        "cache/example.com.png" = none ∧
    (save_icon fsNoDir "cache/example.com.png" [1, 2, 3]).1.cacheDirExists = true ∧
    (save_icon fsNoDir "cache/example.com.png" [1, 2, 3]).2 = false := by
  decide

/-- C4 amended: when the cache directory already exists and neither the
create nor the write fails, save_icon leaves the hit file holding
exactly the given bytes; when the directory is missing, the call only
creates the directory and writes no file (the bytes are persisted only
by a later call). -/
theorem C4_amended_save_icon (fs : FS) (path : String) (iconBytes : Bytes) :
    (fs.cacheDirExists = true → fs.createFails = false → fs.writeFails = false →
      (save_icon fs path iconBytes).1.lookup path = some (FileEntry.mk 0 iconBytes) ∧
      (save_icon fs path iconBytes).2 = false) ∧
    (fs.cacheDirExists = false → fs.mkdirFails = false →
      (save_icon fs path iconBytes).1.cacheDirExists = true ∧
      (save_icon fs path iconBytes).1.files = fs.files ∧
      (save_icon fs path iconBytes).2 = false) := by
  constructor
  · intro hdir hcr hwr
    have hs : save_icon fs path iconBytes = (fs.setFile path iconBytes, false) := by
      unfold save_icon
      rw [hdir, hcr, hwr]
      simp
    rw [hs]
    refine ⟨?_, rfl⟩
    unfold FS.setFile FS.lookup
    simp [List.find?]
  · intro hdir hmk
    have hs : save_icon fs path iconBytes = ({ fs with cacheDirExists := true }, false) := by
      unfold save_icon
      rw [hdir, hmk]
      simp
    rw [hs]
    exact ⟨rfl, rfl, rfl⟩

/-- Witness for C4 amended, at a filesystem with the directory present
and at one without it. -/
theorem C4_amended_save_icon_witness :
    ((save_icon fsDir "cache/e.png" [5]).1.lookup "cache/e.png" =
        some (FileEntry.mk 0 [5])) ∧
    ((save_icon fsNoDir "cache/e.png" [5]).1.cacheDirExists = true ∧
      (save_icon fsNoDir "cache/e.png" [5]).1.files = fsNoDir.files) :=
  ⟨((C4_amended_save_icon fsDir "cache/e.png" [5]).1 (by decide) (by decide) (by decide)).1,
   ((C4_amended_save_icon fsNoDir "cache/e.png" [5]).2 (by decide) (by decide)).1,
   ((C4_amended_save_icon fsNoDir "cache/e.png" [5]).2 (by decide) (by decide)).2.1⟩

/-! ### Sorting lemmas and C7 -/

theorem mem_insertByPrio (x y : Icon) (l : List Icon) :
    y ∈ insertByPrio x l ↔ y = x ∨ y ∈ l := by
  induction l with
  | nil => simp [insertByPrio]
  | cons z zs ih =>
    unfold insertByPrio
    by_cases h : z.priority < x.priority
    · rw [if_pos h]
      simp only [List.mem_cons, ih]
      tauto
    · rw [if_neg h]
      simp only [List.mem_cons]

theorem insertByPrio_ne_nil (x : Icon) (l : List Icon) : insertByPrio x l ≠ [] := by
  cases l with
  | nil => simp [insertByPrio]
  | cons z zs =>
    unfold insertByPrio
    by_cases h : z.priority < x.priority
    · rw [if_pos h]; simp
    · rw [if_neg h]; simp

theorem mem_sortByPrio (y : Icon) (l : List Icon) :
    y ∈ sortByPrio l ↔ y ∈ l := by
  induction l with
  | nil => simp [sortByPrio]
  | cons z zs ih =>
    unfold sortByPrio
    rw [mem_insertByPrio, ih]
    simp

theorem sortByPrio_ne_nil (x : Icon) (l : List Icon) :
    sortByPrio (x :: l) ≠ [] := by
  unfold sortByPrio
  exact insertByPrio_ne_nil x (sortByPrio l)

theorem insertByPrio_sorted (x : Icon) (l : List Icon)
    (h : List.Pairwise (fun a b => a.priority ≤ b.priority) l) :
    List.Pairwise (fun a b => a.priority ≤ b.priority) (insertByPrio x l) := by
  induction l with
  | nil => simp [insertByPrio]
  | cons z zs ih =>
    rcases List.pairwise_cons.mp h with ⟨hz, hzs⟩
    unfold insertByPrio
    by_cases hlt : z.priority < x.priority
    · rw [if_pos hlt]
      rw [List.pairwise_cons]
      refine ⟨?_, ih hzs⟩
      intro y hy
      rcases (mem_insertByPrio x y zs).mp hy with rfl | hy2
      · exact Nat.le_of_lt hlt
      · exact hz y hy2
    · rw [if_neg hlt]
      rw [List.pairwise_cons]
      refine ⟨?_, h⟩
      intro y hy
      rcases List.mem_cons.mp hy with rfl | hy2
      · exact Nat.le_of_not_lt hlt
      · exact Nat.le_trans (Nat.le_of_not_lt hlt) (hz y hy2)

theorem sortByPrio_sorted (l : List Icon) :
    List.Pairwise (fun a b => a.priority ≤ b.priority) (sortByPrio l) := by
  induction l with
  | nil => simp [sortByPrio]
  | cons z zs ih => exact insertByPrio_sorted z (sortByPrio zs) ih

theorem insertByPrio_filter (x : Icon) (l : List Icon) (p : Nat) :
    (insertByPrio x l).filter (fun i => i.priority == p) =
      if x.priority = p then x :: l.filter (fun i => i.priority == p)
      else l.filter (fun i => i.priority == p) := by
  induction l with
  | nil =>
    unfold insertByPrio
    by_cases hx : x.priority = p
    · simp [List.filter_cons, hx]
    · simp [List.filter_cons, hx]
  | cons z zs ih =>
    unfold insertByPrio
    by_cases hlt : z.priority < x.priority
    · rw [if_pos hlt]
      by_cases hx : x.priority = p
      · by_cases hz : z.priority = p
        · omega
        · simp [List.filter_cons, hz, ih, hx]
      · by_cases hz : z.priority = p
        · simp [List.filter_cons, hz, ih, hx]
        · simp [List.filter_cons, hz, ih, hx]
    · rw [if_neg hlt]
      by_cases hx : x.priority = p
      · simp [List.filter_cons, hx]
      · simp [List.filter_cons, hx]

theorem sortByPrio_filter (l : List Icon) (p : Nat) :
    (sortByPrio l).filter (fun i => i.priority == p) =
      l.filter (fun i => i.priority == p) := by
  induction l with
  | nil => rfl
  | cons z zs ih =>
    unfold sortByPrio
    rw [insertByPrio_filter]
    by_cases hz : z.priority = p
    · rw [if_pos hz, ih, List.filter_cons, if_pos (by simp [hz])]
    · rw [if_neg hz, ih, List.filter_cons, if_neg (by simp [hz])]

/-- Helper: what an Ok result of process_page looks like. -/
theorem process_page_ok (env : Env) (content : Response) (t : Trace)
    (raw : List Icon) (ck : String) (t2 : Trace)
    (h : process_page env content t = (IconListRes.ok raw ck, t2)) :
    ∃ fav found,
      env.joinUrl content.finalUrl "/favicon.ico" = some fav ∧
      build_icons env content.finalUrl content.links = some found ∧
      raw = Icon.mk 35 fav :: found ∧ ck = cookieString content.rawCookies ∧ t2 = t := by
  unfold process_page at h
  dsimp only [] at h
  rcases hj : env.joinUrl content.finalUrl "/favicon.ico" with _ | fav
  · rw [hj] at h
    dsimp only [] at h
    injection h with h1 ht
    exact IconListRes.noConfusion h1
  · rw [hj] at h
    dsimp only [] at h
    rcases Bool.eq_false_or_eq_true content.htmlParseError with hpe | hpe
    · simp [hpe] at h
    · simp only [hpe, Bool.false_eq_true, if_false, ite_false] at h
      rcases hb : build_icons env content.finalUrl content.links with _ | found
      · rw [hb] at h
        dsimp only [] at h
        injection h with h1 ht
        exact IconListRes.noConfusion h1
      · rw [hb] at h
        dsimp only [] at h
        injection h with h1 ht
        injection h1 with hl hck
        exact ⟨fav, found, rfl, rfl, hl.symm, hck.symm, ht.symm⟩

/-- The raw (pre-sort) candidate list of get_icon_url is never empty and
always opens with a priority-35 favicon guess. -/
theorem get_icon_url_raw_shape (env : Env) (domain : String)
    (raw : List Icon) (ck : String) (t : Trace)
    (hraw : get_icon_url_raw env domain = (IconListRes.ok raw ck, t)) :
    raw ≠ [] ∧ ∃ i, i ∈ raw ∧ i.priority = 35 := by
  unfold get_icon_url_raw at hraw
  dsimp only [] at hraw
  rcases hp1 : get_page env ("https://" ++ domain) with ⟨r1, ta⟩
  rw [hp1] at hraw
  rcases r1 with c | _ | _
  · dsimp only [] at hraw
    obtain ⟨fav, found, hj, hb, hl, hck, ht⟩ := process_page_ok env c ta raw ck t hraw
    refine ⟨by rw [hl]; simp, ?_⟩
    exact ⟨Icon.mk 35 fav, by rw [hl]; simp, rfl⟩
  · dsimp only [] at hraw
    rcases hp2 : get_page env ("http://" ++ domain) with ⟨r2, tb⟩
    rw [hp2] at hraw
    rcases r2 with c | _ | _
    · dsimp only [] at hraw
      obtain ⟨fav, found, hj, hb, hl, hck, ht⟩ :=
        process_page_ok env c (ta.app tb) raw ck t hraw
      refine ⟨by rw [hl]; simp, ?_⟩
      exact ⟨Icon.mk 35 fav, by rw [hl]; simp, rfl⟩
    · dsimp only [] at hraw
      injection hraw with h1 ht
      injection h1 with hl hck
      refine ⟨by rw [← hl]; simp, ?_⟩
      exact ⟨Icon.mk 35 ("https://" ++ domain ++ "/favicon.ico"),
        by rw [← hl]; simp, rfl⟩
    · dsimp only [] at hraw
      injection hraw with h1 ht
      exact IconListRes.noConfusion h1
  · dsimp only [] at hraw
    injection hraw with h1 ht
    exact IconListRes.noConfusion h1

/-- C7: whenever get_icon_url returns Ok, the candidate list is
non-empty, contains a synthesized favicon guess at priority 35, is
sorted ascending by priority, and ties keep discovery order: for every
priority value the sublist of the result equals that of the unsorted
discovery list; and when the page probe fails for both schemes the list
is exactly the two synthesized favicon guesses, https first then http. -/
theorem C7_get_icon_url_candidates (env : Env) (domain : String)
    (list : List Icon) (ck : String) (t : Trace)
    (hok : get_icon_url env domain = (IconListRes.ok list ck, t)) :
    list ≠ [] ∧
    (∃ i, i ∈ list ∧ i.priority = 35) ∧
    List.Pairwise (fun a b => a.priority ≤ b.priority) list ∧
    (∀ raw ck2 t2, get_icon_url_raw env domain = (IconListRes.ok raw ck2, t2) →
      ∀ p, list.filter (fun i => i.priority == p) =
        raw.filter (fun i => i.priority == p)) ∧
    (((get_page env ("https://" ++ domain)).1 = GPageRes.err ∧
      (get_page env ("http://" ++ domain)).1 = GPageRes.err) →
      list = [Icon.mk 35 ("https://" ++ domain ++ "/favicon.ico"),
              Icon.mk 35 ("http://" ++ domain ++ "/favicon.ico")]) := by
  unfold get_icon_url at hok
  rcases hraw : get_icon_url_raw env domain with ⟨r, t1⟩
  rw [hraw] at hok
  rcases r with ⟨l0, ck0⟩ | _ | _
  case mk.err =>
    dsimp only [] at hok
    injection hok with h1 ht
    exact IconListRes.noConfusion h1
  case mk.panicked =>
    dsimp only [] at hok
    injection hok with h1 ht
    exact IconListRes.noConfusion h1
  case mk.ok =>
  dsimp only [] at hok
  injection hok with h1 ht
  injection h1 with hl hck
  obtain ⟨hne, i35, hi35, hp35⟩ := get_icon_url_raw_shape env domain l0 ck0 t1 hraw
  refine ⟨?_, ?_, ?_, ?_, ?_⟩
  · rw [← hl]
    cases l0 with
    | nil => exact absurd rfl hne
    | cons z zs => exact sortByPrio_ne_nil z zs
  · exact ⟨i35, by rw [← hl]; exact (mem_sortByPrio i35 l0).mpr hi35, hp35⟩
  · rw [← hl]; exact sortByPrio_sorted l0
  · intro raw ck2 t2 hraw2 p
    injection hraw2 with hr1 hr2
    injection hr1 with hl2 hck2
    rw [← hl, hl2]
    exact sortByPrio_filter raw p
  · intro hfail
    obtain ⟨herr1, herr2⟩ := hfail
    unfold get_icon_url_raw at hraw
    dsimp only [] at hraw
    rcases hp1 : get_page env ("https://" ++ domain) with ⟨r1, ta⟩
    rw [hp1] at hraw herr1
    dsimp only [] at herr1
    rcases r1 with c | _ | _
    · exact GPageRes.noConfusion herr1
    · dsimp only [] at hraw
      rcases hp2 : get_page env ("http://" ++ domain) with ⟨r2, tb⟩
      rw [hp2] at hraw herr2
      dsimp only [] at herr2
      rcases r2 with c | _ | _
      · exact GPageRes.noConfusion herr2
      · dsimp only [] at hraw
        injection hraw with hr1 hr2
        injection hr1 with hl2 hck2
        rw [← hl, ← hl2]
        rfl
      · exact GPageRes.noConfusion herr2
    · exact GPageRes.noConfusion herr1

/-- Witness for C7 at an environment where every fetch fails: the
candidate list is exactly the two favicon guesses. -/
theorem C7_get_icon_url_candidates_witness :
    (get_icon_url
        (Env.mk false (fun _ => none) none (fun _ _ => FetchResult.mk [] none)
          (fun _ => some "example.com") (fun b r => some (b ++ r))
          (fun _ => none) "cache" 5 3 false) "example.com" =
      (IconListRes.ok [Icon.mk 35 "https://example.com/favicon.ico",
                       Icon.mk 35 "http://example.com/favicon.ico"] "",
        Trace.mk ["example.com", "example.com"] [])) ∧
    [Icon.mk 35 "https://example.com/favicon.ico",
     Icon.mk 35 "http://example.com/favicon.ico"] ≠ [] := by
  have h := C7_get_icon_url_candidates
    (Env.mk false (fun _ => none) none (fun _ _ => FetchResult.mk [] none)
      (fun _ => some "example.com") (fun b r => some (b ++ r))
      (fun _ => none) "cache" 5 3 false) "example.com"
    [Icon.mk 35 "https://example.com/favicon.ico",
     Icon.mk 35 "http://example.com/favicon.ico"] ""
    (Trace.mk ["example.com", "example.com"] []) (by decide)
  exact ⟨by decide, h.1⟩

/-! ### C2: the SSRF guard and the network trace -/

/-- Every host the code hands to the HTTP client in this trace passed
the blacklist guard. -/
def GoodTrace (env : Env) (t : Trace) : Prop :=
  ∀ h ∈ t.requested, check_icon_domain_is_blacklisted env h = some false

theorem goodTrace_empty (env : Env) : GoodTrace env Trace.empty := by
  intro h hmem
  simp [Trace.empty] at hmem

theorem goodTrace_app (env : Env) (t u : Trace)
    (ht : GoodTrace env t) (hu : GoodTrace env u) : GoodTrace env (t.app u) := by
  intro h hmem
  unfold Trace.app at hmem
  rcases List.mem_append.mp hmem with hm | hm
  · exact ht h hm
  · exact hu h hm

theorem goodTrace_get_page_with_cookies (env : Env) (url ck : String) :
    GoodTrace env (get_page_with_cookies env url ck).2 := by
  intro h hmem
  unfold get_page_with_cookies at hmem
  rcases hu : env.urlHost url with _ | host
  · rw [hu] at hmem
    dsimp only [] at hmem
    simp [Trace.empty] at hmem
  · rw [hu] at hmem
    dsimp only [] at hmem
    rcases hc : check_icon_domain_is_blacklisted env host with _ | b
    · rw [hc] at hmem
      dsimp only [] at hmem
      simp [Trace.empty] at hmem
    · rw [hc] at hmem
      rcases b with _ | _
      · dsimp only [] at hmem
        rcases hfr : (env.fetch url ck).resp with _ | r <;> rw [hfr] at hmem <;>
          dsimp only [] at hmem <;>
          rcases List.mem_singleton.mp hmem with rfl <;> exact hc
      · dsimp only [] at hmem
        simp [Trace.empty] at hmem

/-- process_page leaves the trace it was given untouched: the success
branch of get_icon_url issues no further requests. -/
theorem process_page_trace (env : Env) (content : Response) (t : Trace) :
    (process_page env content t).2 = t := by
  unfold process_page
  dsimp only []
  rcases env.joinUrl content.finalUrl "/favicon.ico" with _ | fav
  · rfl
  · dsimp only []
    rcases Bool.eq_false_or_eq_true content.htmlParseError with hpe | hpe
    · simp [hpe]
    · simp only [hpe, Bool.false_eq_true, if_false, ite_false]
      rcases build_icons env content.finalUrl content.links with _ | found <;> rfl

theorem goodTrace_get_icon_url_raw (env : Env) (domain : String) :
    GoodTrace env (get_icon_url_raw env domain).2 := by
  unfold get_icon_url_raw
  dsimp only []
  rcases hp1 : get_page env ("https://" ++ domain) with ⟨r1, ta⟩
  have hta : GoodTrace env ta := by
    have hg := goodTrace_get_page_with_cookies env ("https://" ++ domain) ""
    rw [show get_page_with_cookies env ("https://" ++ domain) "" = (r1, ta) from hp1] at hg
    exact hg
  rcases r1 with c | _ | _
  · dsimp only []
    rw [process_page_trace env c ta]
    exact hta
  · dsimp only []
    rcases hp2 : get_page env ("http://" ++ domain) with ⟨r2, tb⟩
    have htb : GoodTrace env tb := by
      have hg := goodTrace_get_page_with_cookies env ("http://" ++ domain) ""
      rw [show get_page_with_cookies env ("http://" ++ domain) "" = (r2, tb) from hp2] at hg
      exact hg
    rcases r2 with c | _ | _
    · dsimp only []
      rw [process_page_trace env c (ta.app tb)]
      exact goodTrace_app env ta tb hta htb
    · dsimp only []
      exact goodTrace_app env ta tb hta htb
    · dsimp only []
      exact goodTrace_app env ta tb hta htb
  · dsimp only []
    exact hta

theorem get_icon_url_trace (env : Env) (domain : String) :
    (get_icon_url env domain).2 = (get_icon_url_raw env domain).2 := by
  unfold get_icon_url
  rcases hraw : get_icon_url_raw env domain with ⟨r, t⟩
  rcases r with ⟨l, ck⟩ | _ | _ <;> dsimp only []

theorem goodTrace_icon_loop (env : Env) (ck : String) (l : List Icon) :
    GoodTrace env (icon_loop env ck l).2 := by
  induction l with
  | nil =>
    unfold icon_loop
    exact goodTrace_empty env
  | cons cand rest ih =>
    unfold icon_loop
    by_cases hd : strStartsWith cand.href "data:image" = true
    · rw [if_pos hd]
      rcases dataUrlProcess cand.href with _ | payload
      · exact goodTrace_empty env
      · dsimp only []
        rcases env.base64decode payload with _ | body
        · exact ih
        · dsimp only []
          by_cases hlen : 67 ≤ body.length
          · rw [if_pos hlen]
            exact goodTrace_empty env
          · rw [if_neg hlen]
            exact ih
    · rw [if_neg hd]
      dsimp only []
      rcases hpg : get_page_with_cookies env cand.href ck with ⟨r, t⟩
      have htg : GoodTrace env t := by
        have hg := goodTrace_get_page_with_cookies env cand.href ck
        rw [hpg] at hg
        exact hg
      rcases r with res | _ | _
      · dsimp only []
        exact htg
      · dsimp only []
        rcases hrec : icon_loop env ck rest with ⟨res2, t2⟩
        rw [hrec] at ih
        dsimp only []
        exact goodTrace_app env t t2 htg ih
      · dsimp only []
        exact htg

theorem goodTrace_download_icon (env : Env) (domain : String) :
    GoodTrace env (download_icon env domain).2 := by
  unfold download_icon
  rcases hc : check_icon_domain_is_blacklisted env domain with _ | b
  · dsimp only []
    exact goodTrace_empty env
  · rcases b with _ | _
    · dsimp only []
      have hts := get_icon_url_trace env domain
      have htg0 := goodTrace_get_icon_url_raw env domain
      rcases hgi : get_icon_url env domain with ⟨r, t⟩
      have htg : GoodTrace env t := by
        rw [hgi] at hts
        rw [← hts] at htg0
        exact htg0
      rcases r with ⟨l, ck⟩ | _ | _
      · dsimp only []
        rcases hloop : icon_loop env ck (l.take 5) with ⟨res, t2⟩
        have ht2 : GoodTrace env t2 := by
          have hg := goodTrace_icon_loop env ck (l.take 5)
          rw [hloop] at hg
          exact hg
        rcases res with b2 | _
        · dsimp only []
          by_cases hbe : b2.isEmpty = true
          · rw [if_pos hbe]
            exact goodTrace_app env t t2 htg ht2
          · rw [if_neg hbe]
            exact goodTrace_app env t t2 htg ht2
        · dsimp only []
          exact goodTrace_app env t t2 htg ht2
      · dsimp only []
        exact htg
      · dsimp only []
        exact htg
    · dsimp only []
      exact goodTrace_empty env

/-- The environment of the C2 counterexample: example.com resolves to a
global address, but fetching the page makes the HTTP client follow a
redirect to the host "internal", which resolves to a non-global address;
the client connects to "internal" without any further guard check. -/
def envC2 : Env :=
  Env.mk true
    (fun h => if h = "internal" then some [false] else some [true])
    none
    (fun url _ =>
      if url = "https://example.com" then
        FetchResult.mk ["example.com", "internal"]
          (some (Response.mk "http://internal/" [] [] false [1]))
      else FetchResult.mk [] none)
    (fun url =>
      if url = "https://example.com" then some "example.com"
      else if url = "http://internal//favicon.ico" then some "internal"
      else some "")
    (fun b r => some (b ++ r))
    (fun _ => none)
    "cache" 5 3 false

/-- C2 counterexample: "internal" is a blocked host (non-global IP with
the blocking flag on), yet resolving example.com connects to it, because
the HTTP client follows the redirect internally and the guard is not run
again on the redirect target. -/
theorem C2_counterexample :
    check_icon_domain_is_blacklisted envC2 "internal" = some true ∧
    "internal" ∈ (download_icon envC2 "example.com").2.connected := by
  decide

/-- C2 amended: the guard runs on the bare domain before anything else
(a blacklisted domain aborts with no network activity), and on the host
of every URL before that URL is requested, so every requested host is
unblacklisted; but redirects are followed inside the HTTP client without
re-running the guard, so a blocked host can still be connected to as a
redirect target. -/
theorem C2_amended_ssrf_guard (env : Env) (domain : String) :
    (check_icon_domain_is_blacklisted env domain = some true →
      download_icon env domain = (DlRes.err, Trace.empty)) ∧
    (∀ h ∈ (download_icon env domain).2.requested,
      check_icon_domain_is_blacklisted env h = some false) := by
  constructor
  · intro hb
    unfold download_icon
    rw [hb]
  · exact goodTrace_download_icon env domain

/-- Witness for C2 amended: a blacklisted bare domain aborts the
download with no trace, and in the counterexample run every requested
host passed the guard. -/
theorem C2_amended_ssrf_guard_witness :
    download_icon
        (Env.mk true (fun _ => some [false]) none (fun _ _ => FetchResult.mk [] none)
          (fun _ => some "") (fun b r => some (b ++ r)) (fun _ => none)
          "cache" 5 3 false) "a.com" =
      (DlRes.err, Trace.empty) ∧
    check_icon_domain_is_blacklisted envC2 "example.com" = some false := by
  constructor
  · exact (C2_amended_ssrf_guard
      (Env.mk true (fun _ => some [false]) none (fun _ _ => FetchResult.mk [] none)
        (fun _ => some "") (fun b r => some (b ++ r)) (fun _ => none)
        "cache" 5 3 false) "a.com").1 (by decide)
  · exact (C2_amended_ssrf_guard envC2 "example.com").2 "example.com" (by decide)

/-! ### C9: the candidate loop and the data-URI panic -/

/-- The environment of the C9 failing input: the page of b.com carries
one icon link whose href is the data URL "data:image/png;base64" with no
comma and hence no payload; it passes the soup href filter (it starts
with data:image and ends in base64) and `Url::join` returns an absolute
data URL unchanged (modelled by a joinUrl that returns the reference). -/
def envC9 : Env :=
  Env.mk false (fun _ => none) none
    (fun url _ =>
      if url = "https://b.com" then
        FetchResult.mk ["b.com"]
          (some (Response.mk "https://b.com" [] [("data:image/png;base64", none)] false [1]))
      else FetchResult.mk [] none)
    (fun url => if url = "https://b.com" then some "b.com" else some "")
    (fun _ r => some r)
    (fun _ => none)
    "cache" 5 3 false

/-- C9: a crafted page with the comma-less data URL candidate
"data:image/png;base64" makes download_icon panic: `DataUrl::process`
fails on it and the code calls `.unwrap()` on the result, although the
adjacent handling of `decode_to_vec` shows the intent was to skip an
invalid data URI with a warning. -/
theorem C9_data_uri_panic :
    (download_icon envC9 "b.com").1 = DlRes.panicked := by decide

/-! ### C1: the boundary operation and its panic paths -/

/-- An environment whose only reachable page is a.com, which serves an
icon at its favicon guess. -/
def envC1 : Env :=
  Env.mk false (fun _ => none) none
    (fun url _ =>
      if url = "https://a.com" then
        FetchResult.mk ["a.com"] (some (Response.mk "https://a.com" [] [] false [1]))
      else if url = "https://a.com/favicon.ico" then
        FetchResult.mk ["a.com"] (some (Response.mk "https://a.com/favicon.ico" [] [] false [9]))
      else FetchResult.mk [] none)
    (fun url =>
      if url = "https://a.com" then some "a.com"
      else if url = "https://a.com/favicon.ico" then some "a.com"
      else some "")
    (fun b r => some (b ++ r))
    (fun _ => none)
    "cache" 5 3 false

/-- A filesystem where the cache directory exists but every write
fails. -/
def fsC1 : FS := FS.mk true false true false []

/-- C1 counterexample: with a perfectly healthy download, a filesystem
whose writes fail makes the boundary operation panic (the
`expect("Error writing icon file")` in save_icon), so not every failure
category is absorbed. -/
theorem C1_counterexample :
    (icon envC1 fsC1 "a.com").1 = GRes.panicked := by decide

/-- A href is good when, if it is a data URL, DataUrl::process can
handle it (it has a comma), so the `.unwrap()` at icons.rs line 384
cannot panic. -/
def GoodHref (s : String) : Prop :=
  strStartsWith s "data:image" = true → dataUrlProcess s ≠ none

/-- Every join of the environment succeeds and produces a good href:
this excludes the `Url::join(..).unwrap()` panics at icons.rs lines 234
and 252 and, for join outputs that are data URLs, the
`DataUrl::process(..).unwrap()` panic at line 384. -/
def benignJoin (env : Env) : Prop :=
  ∀ b r, ∃ u, env.joinUrl b r = some u ∧ GoodHref u

/-- URL parsing succeeds on every string: this excludes the
`Url::parse(url).unwrap()` panic at icons.rs line 276 (hit for example
by validated domains that fail WHATWG parsing, such as an all-numeric
name overflowing the IPv4 parser or an invalid punycode label). -/
def benignParse (env : Env) : Prop :=
  ∀ url, env.urlHost url ≠ none

/-- The configured blacklist pattern, if any, compiles: this excludes
the `Regex::new(&blacklist).expect("Valid Regex")` panic at icons.rs
line 85. -/
def benignRegex (env : Env) : Prop :=
  env.icon_blacklist_regex ≠ some BlacklistRegex.invalid

theorem not_data_scheme_https (d s : String) :
    strStartsWith ("https://" ++ d ++ s) "data:image" = false := by
  unfold strStartsWith
  have hdata : ("https://" ++ d ++ s).data =
      'h' :: 't' :: 't' :: 'p' :: 's' :: ':' :: '/' :: '/' :: (d.data ++ s.data) := by
    rw [String.data_append, String.data_append]
    rfl
  have hpat : ("data:image" : String).data =
      ['d', 'a', 't', 'a', ':', 'i', 'm', 'a', 'g', 'e'] := rfl
  rw [hdata, hpat]
  have hne : ('d' == 'h') = false := by decide
  simp [List.isPrefixOf, hne]

theorem not_data_scheme_http (d s : String) :
    strStartsWith ("http://" ++ d ++ s) "data:image" = false := by
  unfold strStartsWith
  have hdata : ("http://" ++ d ++ s).data =
      'h' :: 't' :: 't' :: 'p' :: ':' :: '/' :: '/' :: (d.data ++ s.data) := by
    rw [String.data_append, String.data_append]
    rfl
  have hpat : ("data:image" : String).data =
      ['d', 'a', 't', 'a', ':', 'i', 'm', 'a', 'g', 'e'] := rfl
  rw [hdata, hpat]
  have hne : ('d' == 'h') = false := by decide
  simp [List.isPrefixOf, hne]

/-- Under a benign join, every link of the page joins, so build_icons
succeeds. -/
theorem build_icons_some (env : Env) (hbj : benignJoin env) (url : String)
    (links : List (String × Option String)) :
    ∃ found, build_icons env url links = some found := by
  induction links with
  | nil => exact ⟨[], rfl⟩
  | cons l ls ih =>
    obtain ⟨found, hf⟩ := ih
    obtain ⟨u, hu, _⟩ := hbj url l.1
    refine ⟨Icon.mk (get_icon_priority u l.2) u :: found, ?_⟩
    unfold build_icons
    rw [hu, hf]

/-- Under a benign join, every candidate build_icons produces has a good
href. -/
theorem build_icons_goodHref (env : Env) (hbj : benignJoin env) (url : String) :
    ∀ (links : List (String × Option String)) (found : List Icon),
      build_icons env url links = some found → ∀ i ∈ found, GoodHref i.href := by
  intro links
  induction links with
  | nil =>
    intro found hb i hi
    unfold build_icons at hb
    injection hb with hb2
    rw [← hb2] at hi
    exact absurd hi (List.not_mem_nil i)
  | cons l ls ih =>
    intro found hb i hi
    unfold build_icons at hb
    rcases hj : env.joinUrl url l.1 with _ | full
    · rw [hj] at hb
      exact Option.noConfusion hb
    · rw [hj] at hb
      dsimp only [] at hb
      rcases hrec : build_icons env url ls with _ | rest
      · rw [hrec] at hb
        exact Option.noConfusion hb
      · rw [hrec] at hb
        dsimp only [] at hb
        injection hb with hb2
        rw [← hb2] at hi
        rcases List.mem_cons.mp hi with rfl | hi2
        · obtain ⟨u, hu, hgu⟩ := hbj url l.1
          rw [hj] at hu
          injection hu with hu2
          exact hu2 ▸ hgu
        · exact ih rest hrec i hi2

/-- Every candidate a successful process_page produces has a good
href. -/
theorem process_page_hrefs (env : Env) (hbj : benignJoin env) (content : Response)
    (t : Trace) (raw : List Icon) (ck : String) (t2 : Trace)
    (h : process_page env content t = (IconListRes.ok raw ck, t2)) :
    ∀ i ∈ raw, GoodHref i.href := by
  obtain ⟨fav, found, hj, hb, hl, hck, ht⟩ := process_page_ok env content t raw ck t2 h
  intro i hi
  rw [hl] at hi
  rcases List.mem_cons.mp hi with rfl | hi2
  · obtain ⟨u, hu, hgu⟩ := hbj content.finalUrl "/favicon.ico"
    rw [hj] at hu
    injection hu with hu2
    exact hu2 ▸ hgu
  · exact build_icons_goodHref env hbj content.finalUrl content.links found hb i hi2

/-- Every candidate href produced by the raw extraction is good under a
benign join: the seeds are either join outputs or http(s) URLs, and the
scraped candidates are join outputs. -/
theorem get_icon_url_raw_hrefs (env : Env) (domain : String) (hbj : benignJoin env)
    (l : List Icon) (ck : String) (t : Trace)
    (hraw : get_icon_url_raw env domain = (IconListRes.ok l ck, t)) :
    ∀ i ∈ l, GoodHref i.href := by
  unfold get_icon_url_raw at hraw
  dsimp only [] at hraw
  rcases hp1 : get_page env ("https://" ++ domain) with ⟨r1, ta⟩
  rw [hp1] at hraw
  rcases r1 with c | _ | _
  · dsimp only [] at hraw
    exact process_page_hrefs env hbj c ta l ck t hraw
  · dsimp only [] at hraw
    rcases hp2 : get_page env ("http://" ++ domain) with ⟨r2, tb⟩
    rw [hp2] at hraw
    rcases r2 with c | _ | _
    · dsimp only [] at hraw
      exact process_page_hrefs env hbj c (ta.app tb) l ck t hraw
    · dsimp only [] at hraw
      injection hraw with h1 ht
      injection h1 with hl hck
      intro i hi
      rw [← hl] at hi
      rcases List.mem_cons.mp hi with rfl | hi2
      · intro hstart
        exact absurd hstart (by rw [not_data_scheme_https]; exact Bool.noConfusion)
      · rcases List.mem_cons.mp hi2 with rfl | hi3
        · intro hstart
          exact absurd hstart (by rw [not_data_scheme_http]; exact Bool.noConfusion)
        · exact absurd hi3 (List.not_mem_nil i)
    · dsimp only [] at hraw
      injection hraw with h1 ht
      exact IconListRes.noConfusion h1
  · dsimp only [] at hraw
    injection hraw with h1 ht
    exact IconListRes.noConfusion h1

theorem get_icon_url_hrefs (env : Env) (domain : String) (hbj : benignJoin env)
    (l : List Icon) (ck : String) (t : Trace)
    (hok : get_icon_url env domain = (IconListRes.ok l ck, t)) :
    ∀ i ∈ l, GoodHref i.href := by
  unfold get_icon_url at hok
  rcases hraw : get_icon_url_raw env domain with ⟨r, t1⟩
  rw [hraw] at hok
  rcases r with ⟨l0, ck0⟩ | _ | _
  · dsimp only [] at hok
    injection hok with h1 ht
    injection h1 with hl hck
    intro i hi
    rw [← hl] at hi
    exact get_icon_url_raw_hrefs env domain hbj l0 ck0 t1 hraw i
      ((mem_sortByPrio i l0).mp hi)
  · dsimp only [] at hok
    injection hok with h1 ht
    exact IconListRes.noConfusion h1
  · dsimp only [] at hok
    injection hok with h1 ht
    exact IconListRes.noConfusion h1

/-- Under a benign configuration the blacklist check cannot panic. -/
theorem check_no_panic (env : Env) (hr : benignRegex env) (d : String) :
    check_icon_domain_is_blacklisted env d ≠ none := by
  intro h
  unfold check_icon_domain_is_blacklisted at h
  dsimp only [] at h
  split at h
  · rcases hreg : env.icon_blacklist_regex with _ | br
    · rw [hreg] at h
      exact Option.noConfusion h
    · rcases br with _ | m
      · exact hr hreg
      · rw [hreg] at h
        exact Option.noConfusion h
  · exact Option.noConfusion h

theorem get_page_with_cookies_no_panic (env : Env) (hp : benignParse env)
    (hr : benignRegex env) (url ck : String) :
    (get_page_with_cookies env url ck).1 ≠ GPageRes.panicked := by
  unfold get_page_with_cookies
  rcases hu : env.urlHost url with _ | host
  · exact absurd hu (hp url)
  · dsimp only []
    rcases hc : check_icon_domain_is_blacklisted env host with _ | b
    · exact absurd hc (check_no_panic env hr host)
    · rcases b with _ | _
      · dsimp only []
        rcases (env.fetch url ck).resp with _ | r <;> simp
      · dsimp only []
        simp

theorem process_page_no_panic (env : Env) (hbj : benignJoin env)
    (content : Response) (t : Trace) :
    (process_page env content t).1 ≠ IconListRes.panicked := by
  unfold process_page
  dsimp only []
  obtain ⟨u, hu, _⟩ := hbj content.finalUrl "/favicon.ico"
  rw [hu]
  dsimp only []
  rcases Bool.eq_false_or_eq_true content.htmlParseError with hpe | hpe
  · simp [hpe]
  · simp only [hpe, Bool.false_eq_true, if_false, ite_false]
    obtain ⟨found, hf⟩ := build_icons_some env hbj content.finalUrl content.links
    rw [hf]
    simp

theorem get_icon_url_raw_no_panic (env : Env) (domain : String)
    (hp : benignParse env) (hr : benignRegex env) (hbj : benignJoin env) :
    (get_icon_url_raw env domain).1 ≠ IconListRes.panicked := by
  unfold get_icon_url_raw
  dsimp only []
  rcases hp1 : get_page env ("https://" ++ domain) with ⟨r1, ta⟩
  have h1 := get_page_with_cookies_no_panic env hp hr ("https://" ++ domain) ""
  rw [show get_page_with_cookies env ("https://" ++ domain) "" = (r1, ta) from hp1] at h1
  rcases r1 with c | _ | _
  · dsimp only []
    exact process_page_no_panic env hbj c ta
  · dsimp only []
    rcases hp2 : get_page env ("http://" ++ domain) with ⟨r2, tb⟩
    have h2 := get_page_with_cookies_no_panic env hp hr ("http://" ++ domain) ""
    rw [show get_page_with_cookies env ("http://" ++ domain) "" = (r2, tb) from hp2] at h2
    rcases r2 with c | _ | _
    · dsimp only []
      exact process_page_no_panic env hbj c (ta.app tb)
    · dsimp only []
      simp
    · exact absurd rfl h2
  · exact absurd rfl h1

theorem get_icon_url_no_panic (env : Env) (domain : String)
    (hp : benignParse env) (hr : benignRegex env) (hbj : benignJoin env) :
    (get_icon_url env domain).1 ≠ IconListRes.panicked := by
  unfold get_icon_url
  have hrawn := get_icon_url_raw_no_panic env domain hp hr hbj
  rcases hraw : get_icon_url_raw env domain with ⟨r, t⟩
  rw [hraw] at hrawn
  rcases r with ⟨l, ck⟩ | _ | _
  · dsimp only []
    simp
  · dsimp only []
    simp
  · exact absurd rfl hrawn

theorem icon_loop_no_panic (env : Env) (hp : benignParse env) (hr : benignRegex env)
    (ck : String) (l : List Icon)
    (hgood : ∀ i ∈ l, GoodHref i.href) :
    (icon_loop env ck l).1 ≠ LoopRes.panicked := by
  induction l with
  | nil =>
    unfold icon_loop
    simp
  | cons cand rest ih =>
    unfold icon_loop
    by_cases hd : strStartsWith cand.href "data:image" = true
    · rw [if_pos hd]
      have hg := hgood cand (List.mem_cons_self cand rest) hd
      rcases hproc : dataUrlProcess cand.href with _ | payload
      · exact absurd hproc hg
      · dsimp only []
        rcases env.base64decode payload with _ | body
        · exact ih (fun i hi => hgood i (List.mem_cons_of_mem cand hi))
        · dsimp only []
          by_cases hlen : 67 ≤ body.length
          · rw [if_pos hlen]
            simp
          · rw [if_neg hlen]
            exact ih (fun i hi => hgood i (List.mem_cons_of_mem cand hi))
    · rw [if_neg hd]
      dsimp only []
      have hnp := get_page_with_cookies_no_panic env hp hr cand.href ck
      rcases hpg : get_page_with_cookies env cand.href ck with ⟨r, t⟩
      rw [hpg] at hnp
      rcases r with res | _ | _
      · dsimp only []
        simp
      · dsimp only []
        rcases hrec : icon_loop env ck rest with ⟨res2, t2⟩
        dsimp only []
        have hih := ih (fun i hi => hgood i (List.mem_cons_of_mem cand hi))
        rw [hrec] at hih
        exact hih
      · exact absurd rfl hnp

theorem download_icon_no_panic (env : Env) (domain : String)
    (hp : benignParse env) (hr : benignRegex env) (hbj : benignJoin env) :
    (download_icon env domain).1 ≠ DlRes.panicked := by
  unfold download_icon
  rcases hc : check_icon_domain_is_blacklisted env domain with _ | b
  · exact absurd hc (check_no_panic env hr domain)
  · rcases b with _ | _
    · dsimp only []
      have hgn := get_icon_url_no_panic env domain hp hr hbj
      rcases hgi : get_icon_url env domain with ⟨r, t⟩
      rw [hgi] at hgn
      rcases r with ⟨l, ck⟩ | _ | _
      · dsimp only []
        have hloopn := icon_loop_no_panic env hp hr ck (l.take 5)
          (fun i hi => get_icon_url_hrefs env domain hbj l ck t hgi i (List.take_subset 5 l hi))
        rcases hloop : icon_loop env ck (l.take 5) with ⟨res, t2⟩
        rw [hloop] at hloopn
        rcases res with b2 | _
        · dsimp only []
          by_cases hbe : b2.isEmpty = true
          · rw [if_pos hbe]
            simp
          · rw [if_neg hbe]
            simp
        · exact absurd rfl hloopn
      · dsimp only []
        simp
      · exact absurd rfl hgn
    · dsimp only []
      simp

theorem icon_is_negcached_flags (env : Env) (fs : FS) (path : String) :
    (icon_is_negcached env fs path).2.writeFails = fs.writeFails ∧
    (icon_is_negcached env fs path).2.mkdirFails = fs.mkdirFails := by
  unfold icon_is_negcached
  dsimp only []
  rcases file_is_expired fs (path ++ ".miss") env.icon_cache_negttl with e | b
  · exact ⟨rfl, rfl⟩
  · rcases b with _ | _ <;> exact ⟨rfl, rfl⟩

theorem get_cached_icon_fs (env : Env) (fs : FS) (path : String) :
    (get_cached_icon env fs path).2 = (icon_is_negcached env fs path).2 := by
  unfold get_cached_icon
  rcases hneg : icon_is_negcached env fs path with ⟨bneg, fs1⟩
  rcases bneg with _ | _
  · dsimp only []
    by_cases he : icon_is_expired env fs1 path = true
    · rw [if_pos he]
    · rw [if_neg he]
      rcases fs1.lookup path with _ | e <;> dsimp only []
  · dsimp only []

theorem save_icon_no_panic (fs : FS) (path : String) (b : Bytes)
    (hw : fs.writeFails = false) (hm : fs.mkdirFails = false) :
    (save_icon fs path b).2 = false := by
  unfold save_icon
  by_cases hd : fs.cacheDirExists = true
  · rw [if_pos hd]
    by_cases hc : fs.createFails = true
    · rw [if_pos hc]
    · rw [if_neg hc, hw]
      simp
  · rw [if_neg hd, hm]
    simp

/-- C1 amended: the boundary operation is infallible except for the
panic paths the code itself contains: it always returns image bytes
provided that the filesystem neither fails a cache write nor fails
creating the cache directory (the `expect` calls in save_icon panic
there), that `Url::parse` succeeds on the probed and candidate URLs
(line 276 unwraps it), that `Url::join` succeeds on the favicon seed and
every scraped href (lines 234 and 252 unwrap it), that no reachable
data-URI candidate defeats `DataUrl::process` (line 384 unwraps it), and
that a configured blacklist pattern compiles (line 85 expects it); every
other failure — invalid domain, blacklisted host, fetch failure, soup
parse failure, exhausted candidates, file create errors — is absorbed
into the fallback image or cached bytes. -/
theorem C1_amended_icon_never_panics (env : Env) (fs : FS) (domain : String)
    (hw : fs.writeFails = false) (hm : fs.mkdirFails = false)
    (hp : benignParse env) (hr : benignRegex env) (hbj : benignJoin env) :
    ∃ b fs2, (icon env fs domain).1 = GRes.ok b fs2 := by
  unfold icon
  by_cases hv : is_valid_domain domain = true
  · simp only [hv, Bool.not_true, Bool.false_eq_true, if_false, ite_false]
    unfold get_icon
    dsimp only []
    rcases hcache : get_cached_icon env fs (env.icon_cache_folder ++ "/" ++ domain ++ ".png")
      with ⟨o, fs1⟩
    have hfs1 : fs1 =
        (icon_is_negcached env fs (env.icon_cache_folder ++ "/" ++ domain ++ ".png")).2 := by
      have hq := get_cached_icon_fs env fs (env.icon_cache_folder ++ "/" ++ domain ++ ".png")
      rw [hcache] at hq
      exact hq
    have hw1 : fs1.writeFails = false := by
      rw [hfs1,
        (icon_is_negcached_flags env fs (env.icon_cache_folder ++ "/" ++ domain ++ ".png")).1, hw]
    have hm1 : fs1.mkdirFails = false := by
      rw [hfs1,
        (icon_is_negcached_flags env fs (env.icon_cache_folder ++ "/" ++ domain ++ ".png")).2, hm]
    rcases o with _ | cached
    · dsimp only []
      by_cases hdis : env.disable_icon_download = true
      · rw [if_pos hdis]
        exact ⟨FALLBACK_ICON, fs1, rfl⟩
      · rw [if_neg hdis]
        rcases hdl : download_icon env domain with ⟨r, t⟩
        rcases r with bytes | _ | _
        · dsimp only []
          have hsp := save_icon_no_panic fs1
            (env.icon_cache_folder ++ "/" ++ domain ++ ".png") bytes hw1 hm1
          rcases hsv : save_icon fs1 (env.icon_cache_folder ++ "/" ++ domain ++ ".png") bytes
            with ⟨fs2, pan⟩
          rw [hsv] at hsp
          dsimp only [] at hsp
          exact ⟨bytes, fs2, by simp [hsp]⟩
        · dsimp only []
          have hsp := save_icon_no_panic fs1
            (env.icon_cache_folder ++ "/" ++ domain ++ ".png" ++ ".miss") [] hw1 hm1
          rcases hsv : save_icon fs1 (env.icon_cache_folder ++ "/" ++ domain ++ ".png" ++ ".miss") []
            with ⟨fs2, pan⟩
          rw [hsv] at hsp
          dsimp only [] at hsp
          exact ⟨FALLBACK_ICON, fs2, by simp [hsp]⟩
        · have hnp := download_icon_no_panic env domain hp hr hbj
          rw [hdl] at hnp
          exact absurd rfl hnp
    · dsimp only []
      exact ⟨cached, fs1, rfl⟩
  · simp only [Bool.not_eq_true] at hv
    simp only [hv, Bool.not_false, if_true, ite_true]
    exact ⟨FALLBACK_ICON, fs, rfl⟩

/-- A benign environment: URL parsing always succeeds, every join result
is a constant non-data URL, no blacklist pattern is configured. -/
def envW : Env :=
  Env.mk false (fun _ => none) none (fun _ _ => FetchResult.mk [] none)
    (fun _ => some "") (fun _ _ => some "https://x/favicon.ico") (fun _ => none)
    "cache" 5 3 false

/-- Witness for C1 amended at the concrete benign environment. -/
theorem C1_amended_icon_never_panics_witness :
    ∃ b fs2, (icon envW fsDir "a.com").1 = GRes.ok b fs2 := by
  apply C1_amended_icon_never_panics envW fsDir "a.com" (by decide) (by decide)
  · intro url h
    exact Option.noConfusion h
  · intro h
    exact Option.noConfusion h
  · intro b r
    refine ⟨"https://x/favicon.ico", rfl, ?_⟩
    intro h
    have hc : strStartsWith "https://x/favicon.ico" "data:image" = false := by decide
    rw [hc] at h
    exact Bool.noConfusion h

end Icons
